import Mathlib

/-!
Verification of the NEAR bootcamp messaging contract (`src/smart-contract/src/lib.rs`).

The contract keeps three stores:
* `users`  — a `near_sdk::store::UnorderedSet<AccountId>`; with no removals its
  iteration order is insertion order, so we model it as a `List String` in
  insertion order (`insert` appends and reports whether the element was new);
* `messages` — a `LookupMap<CryptoHash, Vector<Message>>`, modelled as an
  association list from 32-byte digests to message lists in append order;
* `friends` — a `LookupMap<AccountId, LookupMap<AccountId, bool>>`, modelled as
  a nested association list.

`AccountId` is modelled as `String` (the contract itself never inspects or
validates the account-id syntax), `CryptoHash` as a list of 32 bytes, and
`u64`/`u32` quantities as `Nat` (none of the operations can overflow them
short of 2^32 registrations).  `require!(cond, msg)` and `env::panic_str`
abort the NEAR transaction and revert every write of the call, so a panicking
execution is modelled as `Except.error e` with `e` identifying the panic site;
the pre-state is then the observable state.  `env::keccak256` is the host's
Keccak-256; it is implemented below (Keccak-f[1600], rate 1088, multi-rate
padding `0x01 … 0x80`) so digests are computed concretely.
-/

/-! ## Keccak-256 (model of the host primitive `env::keccak256`) -/

/-- Left-rotation of a 64-bit lane (lanes are `Nat`s below `2 ^ 64`). -/
def rotl64 (x n : Nat) : Nat :=
  ((x <<< n) % (2 ^ 64)) ||| (x >>> (64 - n))

/-- The 24 round constants of Keccak-f[1600]. -/
def keccakRC : List Nat :=
  [0x0000000000000001, 0x0000000000008082, 0x800000000000808a, 0x8000000080008000,
   0x000000000000808b, 0x0000000080000001, 0x8000000080008081, 0x8000000000008009,
   0x000000000000008a, 0x0000000000000088, 0x0000000080008009, 0x000000008000000a,
   0x000000008000808b, 0x800000000000008b, 0x8000000000008089, 0x8000000000008003,
   0x8000000000008002, 0x8000000000000080, 0x000000000000800a, 0x800000008000000a,
   0x8000000080008081, 0x8000000000008080, 0x0000000080000001, 0x8000000080008008]

/-- One round of Keccak-f[1600] on a 25-lane state in row-major order
(lane `(x, y)` at index `x + 5 * y`): θ, then ρ and π
(`b (y + 5 * ((2x + 3y) % 5)) = rotl64 (t (x + 5y)) r` with the standard
rotation offsets), then χ, then ι.  States of length ≠ 25 are returned
unchanged (never happens from `keccak256` below). -/
def kRound (rc : Nat) (s : List Nat) : List Nat :=
  match s with
  | [a0, a1, a2, a3, a4, a5, a6, a7, a8, a9, a10, a11, a12, a13, a14,
     a15, a16, a17, a18, a19, a20, a21, a22, a23, a24] =>
    let c0 := a0 ^^^ a5 ^^^ a10 ^^^ a15 ^^^ a20
    let c1 := a1 ^^^ a6 ^^^ a11 ^^^ a16 ^^^ a21
    let c2 := a2 ^^^ a7 ^^^ a12 ^^^ a17 ^^^ a22
    let c3 := a3 ^^^ a8 ^^^ a13 ^^^ a18 ^^^ a23
    let c4 := a4 ^^^ a9 ^^^ a14 ^^^ a19 ^^^ a24
    let d0 := c4 ^^^ rotl64 c1 1
    let d1 := c0 ^^^ rotl64 c2 1
    let d2 := c1 ^^^ rotl64 c3 1
    let d3 := c2 ^^^ rotl64 c4 1
    let d4 := c3 ^^^ rotl64 c0 1
    let t0 := a0 ^^^ d0
    let t1 := a1 ^^^ d1
    let t2 := a2 ^^^ d2
    let t3 := a3 ^^^ d3
    let t4 := a4 ^^^ d4
    let t5 := a5 ^^^ d0
    let t6 := a6 ^^^ d1
    let t7 := a7 ^^^ d2
    let t8 := a8 ^^^ d3
    let t9 := a9 ^^^ d4
    let t10 := a10 ^^^ d0
    let t11 := a11 ^^^ d1
    let t12 := a12 ^^^ d2
    let t13 := a13 ^^^ d3
    let t14 := a14 ^^^ d4
    let t15 := a15 ^^^ d0
    let t16 := a16 ^^^ d1
    let t17 := a17 ^^^ d2
    let t18 := a18 ^^^ d3
    let t19 := a19 ^^^ d4
    let t20 := a20 ^^^ d0
    let t21 := a21 ^^^ d1
    let t22 := a22 ^^^ d2
    let t23 := a23 ^^^ d3
    let t24 := a24 ^^^ d4
    let b0 := t0
    let b10 := rotl64 t1 1
    let b20 := rotl64 t2 62
    let b5 := rotl64 t3 28
    let b15 := rotl64 t4 27
    let b16 := rotl64 t5 36
    let b1 := rotl64 t6 44
    let b11 := rotl64 t7 6
    let b21 := rotl64 t8 55
    let b6 := rotl64 t9 20
    let b7 := rotl64 t10 3
    let b17 := rotl64 t11 10
    let b2 := rotl64 t12 43
    let b12 := rotl64 t13 25
    let b22 := rotl64 t14 39
    let b23 := rotl64 t15 41
    let b8 := rotl64 t16 45
    let b18 := rotl64 t17 15
    let b3 := rotl64 t18 21
    let b13 := rotl64 t19 8
    let b14 := rotl64 t20 18
    let b24 := rotl64 t21 2
    let b9 := rotl64 t22 61
    let b19 := rotl64 t23 56
    let b4 := rotl64 t24 14
    let m : Nat := 0xFFFFFFFFFFFFFFFF
    let r0 := b0 ^^^ ((b1 ^^^ m) &&& b2) ^^^ rc
    let r1 := b1 ^^^ ((b2 ^^^ m) &&& b3)
    let r2 := b2 ^^^ ((b3 ^^^ m) &&& b4)
    let r3 := b3 ^^^ ((b4 ^^^ m) &&& b0)
    let r4 := b4 ^^^ ((b0 ^^^ m) &&& b1)
    let r5 := b5 ^^^ ((b6 ^^^ m) &&& b7)
    let r6 := b6 ^^^ ((b7 ^^^ m) &&& b8)
    let r7 := b7 ^^^ ((b8 ^^^ m) &&& b9)
    let r8 := b8 ^^^ ((b9 ^^^ m) &&& b5)
    let r9 := b9 ^^^ ((b5 ^^^ m) &&& b6)
    let r10 := b10 ^^^ ((b11 ^^^ m) &&& b12)
    let r11 := b11 ^^^ ((b12 ^^^ m) &&& b13)
    let r12 := b12 ^^^ ((b13 ^^^ m) &&& b14)
    let r13 := b13 ^^^ ((b14 ^^^ m) &&& b10)
    let r14 := b14 ^^^ ((b10 ^^^ m) &&& b11)
    let r15 := b15 ^^^ ((b16 ^^^ m) &&& b17)
    let r16 := b16 ^^^ ((b17 ^^^ m) &&& b18)
    let r17 := b17 ^^^ ((b18 ^^^ m) &&& b19)
    let r18 := b18 ^^^ ((b19 ^^^ m) &&& b15)
    let r19 := b19 ^^^ ((b15 ^^^ m) &&& b16)
    let r20 := b20 ^^^ ((b21 ^^^ m) &&& b22)
    let r21 := b21 ^^^ ((b22 ^^^ m) &&& b23)
    let r22 := b22 ^^^ ((b23 ^^^ m) &&& b24)
    let r23 := b23 ^^^ ((b24 ^^^ m) &&& b20)
    let r24 := b24 ^^^ ((b20 ^^^ m) &&& b21)
    [r0, r1, r2, r3, r4, r5, r6, r7, r8, r9, r10, r11, r12, r13, r14,
     r15, r16, r17, r18, r19, r20, r21, r22, r23, r24]
  | _ => s

/-- The full 24-round Keccak-f[1600] permutation. -/
def keccakF (s : List Nat) : List Nat :=
  keccakRC.foldl (fun st rc => kRound rc st) s

/-- Multi-rate padding for rate 136 bytes: append `0x01`, zero bytes, `0x80`
(`0x81` when a single byte completes the block). -/
def keccakPad (msg : List Nat) : List Nat :=
  let padLen := 136 - msg.length % 136
  if padLen = 1 then msg ++ [0x81]
  else msg ++ [0x01] ++ List.replicate (padLen - 2) 0 ++ [0x80]

/-- A little-endian 8-byte group as one 64-bit lane. -/
def bytesToLane (bytes : List Nat) : Nat :=
  bytes.foldr (fun b acc => acc * 256 + b) 0

/-- The 17 lanes of one 136-byte rate block. -/
def blockLanes (bytes : List Nat) : List Nat :=
  (List.range 17).map fun i => bytesToLane ((bytes.drop (8 * i)).take 8)

/-- Absorb one rate block: xor it into the first 17 lanes, then permute. -/
def absorbBlock (st : List Nat) (block : List Nat) : List Nat :=
  keccakF (List.zipWith (· ^^^ ·) st (blockLanes block ++ List.replicate 8 0))

/-- Split a byte list into 136-byte blocks.  The fuel argument (instantiated
with the list length, which caps the number of blocks) keeps the recursion
structural so that the kernel can evaluate it. -/
def blockChunks : Nat → List Nat → List (List Nat)
  | 0, _ => []
  | _, [] => []
  | fuel + 1, bytes => bytes.take 136 :: blockChunks fuel (bytes.drop 136)

/-- Absorb a (padded) byte string block by block. -/
def absorb (st : List Nat) (bytes : List Nat) : List Nat :=
  (blockChunks bytes.length bytes).foldl absorbBlock st

/-- The 8 bytes of a lane, little-endian. -/
def laneBytes (x : Nat) : List Nat :=
  (List.range 8).map fun i => (x >>> (8 * i)) % 256

/-- Keccak-256 of a byte string: pad, absorb into the all-zero state, and
squeeze the first 32 bytes (4 lanes).  This is the digest NEAR's
`env::keccak256` host function returns. -/
def keccak256 (msg : List Nat) : List Nat :=
  match absorb (List.replicate 25 0) (keccakPad msg) with
  | a0 :: a1 :: a2 :: a3 :: _ => laneBytes a0 ++ laneBytes a1 ++ laneBytes a2 ++ laneBytes a3
  | s => s

/-! ## UTF-8 -/

/-- The UTF-8 bytes of one scalar value. -/
def utf8Bytes (c : Char) : List Nat :=
  let n := c.toNat
  if n < 0x80 then [n]
  else if n < 0x800 then [0xC0 ||| (n >>> 6), 0x80 ||| (n &&& 0x3F)]
  else if n < 0x10000 then
    [0xE0 ||| (n >>> 12), 0x80 ||| ((n >>> 6) &&& 0x3F), 0x80 ||| (n &&& 0x3F)]
  else
    [0xF0 ||| (n >>> 18), 0x80 ||| ((n >>> 12) &&& 0x3F),
     0x80 ||| ((n >>> 6) &&& 0x3F), 0x80 ||| (n &&& 0x3F)]

/-- The UTF-8 bytes of a string, as `str::as_bytes` exposes them in Rust. -/
def strBytes (s : String) : List Nat :=
  (s.toList.map utf8Bytes).flatten

/-! ## Association-list maps (model of `near_sdk::store::LookupMap`) -/

/-- Point lookup in an association list (`LookupMap::get` / `contains_key`). -/
def lookupMap {α β : Type} [DecidableEq α] : List (α × β) → α → Option β
  | [], _ => none
  | p :: rest, k => if p.1 = k then some p.2 else lookupMap rest k

/-- Insert-or-overwrite in an association list (`LookupMap::insert`, and the
write performed through `entry(..).or_insert_with(..)`). -/
def insertMap {α β : Type} [DecidableEq α] : List (α × β) → α → β → List (α × β)
  | [], k, v => [(k, v)]
  | p :: rest, k, v => if p.1 = k then (k, v) :: rest else p :: insertMap rest k v

/-! ## Data model of the contract -/

/-- 32-byte digest, the key of the message log (`near_sdk::CryptoHash`). -/
abbrev CryptoHash := List Nat

/-- A stored message (struct `Message` in the source). -/
structure Message where
  author : String
  content : String
  created_at_ms : Nat
deriving DecidableEq

/-- The distinct abort sites of the contract, one per `require!` /
`env::panic_str` call, labelled with the error taxonomy of the spec (§7):
* `Unauthorized`   — "You must be a user to add a friend." /
  "You must be a user to send a message."
* `InvalidTarget`  — "Your friend must be a user." /
  "The receiver must be a user to receive a message."
* `SelfReference`  — "You cannot add yourself as friend."
* `NoFriendsAtAll` — "You do not have any friend."
* `NotFriend`      — "You are not friends with the given receiver."
* `EmptyMessage`   — "The message can not be empty."
* `NoSuchChannel`  — "The user does not have any messages."
A NEAR panic aborts the call and reverts every write of the call. -/
inductive ContractError where
  | Unauthorized
  | InvalidTarget
  | SelfReference
  | NoFriendsAtAll
  | NotFriend
  | EmptyMessage
  | NoSuchChannel
deriving DecidableEq

/-- The contract state (struct `Contract` in the source). -/
structure Contract where
  users : List String
  messages : List (CryptoHash × List Message)
  friends : List (String × List (String × Bool))
deriving DecidableEq

/-- `Contract::new` — all three stores empty. -/
def Contract.new : Contract := ⟨[], [], []⟩

/-! ## Operations

Each `pub fn` of the source becomes a function taking the pre-state and the
caller identity (`env::predecessor_account_id()`) explicitly;
`env::block_timestamp_ms()` becomes the explicit argument `now_ms`.
`require!(cond, msg)` is `if cond then … else Except.error e`. -/

/-- `fn calculate_hash`: keccak256 of `format!("{}{}", a, b)`, i.e. of the
UTF-8 bytes of `a` directly followed by those of `b`.  (The `&self` receiver
of the source method is unused and omitted.) -/
def calculate_hash (a b : String) : CryptoHash :=
  keccak256 (strBytes (a ++ b))

/-- `pub fn get_chat_id` — the channel key of the ordered pair. -/
def get_chat_id (user_id receiver_id : String) : CryptoHash :=
  calculate_hash user_id receiver_id

/-- `pub fn create_account`: `self.users.insert(predecessor)`.
`UnorderedSet::insert` appends a fresh element and returns whether it was
newly inserted. -/
def create_account (c : Contract) (user_id : String) : Bool × Contract :=
  if user_id ∈ c.users then (false, c)
  else (true, { c with users := c.users ++ [user_id] })

/-- `pub fn add_friend`: three `require!` guards, then the two directed
writes `friends[user][friend] := true` and `friends[friend][user] := true`,
each through `entry(..).or_insert_with(new map)`. -/
def add_friend (c : Contract) (user_id friend_id : String) : Except ContractError Contract :=
  if user_id ∈ c.users then
    if friend_id ∈ c.users then
      if user_id = friend_id then Except.error ContractError.SelfReference
      else
        let inner1 := (lookupMap c.friends user_id).getD []
        let friends1 := insertMap c.friends user_id (insertMap inner1 friend_id true)
        let inner2 := (lookupMap friends1 friend_id).getD []
        Except.ok { c with friends := insertMap friends1 friend_id (insertMap inner2 user_id true) }
    else Except.error ContractError.InvalidTarget
  else Except.error ContractError.Unauthorized

/-- `pub fn send_message`: two `require!` membership guards, the
`friends.get(caller)` lookup that panics when the caller has no friends map
at all, the `contains_key(receiver)` guard, the non-empty-content guard, and
finally the append of the message to the (lazily created) log at
`get_chat_id(caller, receiver)`, returning that chat id. -/
def send_message (c : Contract) (user_id receiver_id message_content : String) (now_ms : Nat) :
    Except ContractError (CryptoHash × Contract) :=
  if user_id ∈ c.users then
    if receiver_id ∈ c.users then
      match lookupMap c.friends user_id with
      | none => Except.error ContractError.NoFriendsAtAll
      | some inner =>
        if (lookupMap inner receiver_id).isSome then
          if message_content = "" then Except.error ContractError.EmptyMessage
          else
            let chat_id := get_chat_id user_id receiver_id
            let newLog := (lookupMap c.messages chat_id).getD [] ++
              [⟨user_id, message_content, now_ms⟩]
            Except.ok (chat_id, { c with messages := insertMap c.messages chat_id newLog })
        else Except.error ContractError.NotFriend
    else Except.error ContractError.InvalidTarget
  else Except.error ContractError.Unauthorized

/-- `pub fn get_messages`: resolve the chat id of the ordered pair, panic if
no log exists there, otherwise iterate in reverse append order, skip
`offset` (default 0), take `limit` (default 10). -/
def get_messages (c : Contract) (user_id receiver_id : String)
    (limit offset : Option Nat) : Except ContractError (List Message) :=
  match lookupMap c.messages (get_chat_id user_id receiver_id) with
  | none => Except.error ContractError.NoSuchChannel
  | some msgs => Except.ok ((msgs.reverse.drop (offset.getD 0)).take (limit.getD 10))

/-- `pub fn get_users`: iterate the registry in reverse insertion order, skip
`offset` (default 0), take `limit` (default 10). -/
def get_users (c : Contract) (limit offset : Option Nat) : List String :=
  (c.users.reverse.drop (offset.getD 0)).take (limit.getD 10)

/-- `pub fn get_users_length`: the registry cardinality. -/
def get_users_length (c : Contract) : Nat :=
  c.users.length

/-- The composition of the two directed writes `add_friend` performs on the
`friends` store (first `u→f`, then `f→u`, each through
`entry(..).or_insert_with(..)` followed by `insert(.., true)`). -/
def friendsAfterAdd (fr : List (String × List (String × Bool))) (u f : String) :
    List (String × List (String × Bool)) :=
  insertMap (insertMap fr u (insertMap ((lookupMap fr u).getD []) f true)) f
    (insertMap
      ((lookupMap (insertMap fr u (insertMap ((lookupMap fr u).getD []) f true)) f).getD [])
      u true)

/-! ## Observers and transition system -/

/-- The directed friendship fact stored for `a → b`: the boolean at key `b`
in `a`'s inner friends map, `none` when either level is missing.  (An absent
outer map and an outer map without the key both mean "no directed fact".) -/
def friendFact (c : Contract) (a b : String) : Option Bool :=
  lookupMap ((lookupMap c.friends a).getD []) b

/-- Modelled from the spec: `are_friends(a, b)` is "true iff the directed
fact `a→b` exists and equals `true`" (§4.2).  The source contract exposes no
such helper; the spec (§6) lists it as implied by the internal checks. -/
def are_friends (c : Contract) (a b : String) : Bool :=
  (friendFact c a b).getD false

/-- The state after a `create_account` call. -/
def stepCreate (c : Contract) (u : String) : Contract :=
  (create_account c u).2

/-- The state after an `add_friend` call; a panic reverts to the pre-state. -/
def stepAddFriend (c : Contract) (u f : String) : Contract :=
  match add_friend c u f with
  | Except.ok c' => c'
  | Except.error _ => c

/-- The state after a `send_message` call; a panic reverts to the pre-state. -/
def stepSend (c : Contract) (u r m : String) (t : Nat) : Contract :=
  match send_message c u r m t with
  | Except.ok p => p.2
  | Except.error _ => c

/-- States reachable from `Contract::new` by any sequence of calls (view
calls do not mutate; failed calls revert to the pre-state, which the step
functions encode). -/
inductive Reachable : Contract → Prop where
  | init : Reachable Contract.new
  | create {c : Contract} {u : String} : Reachable c → Reachable (stepCreate c u)
  | add {c : Contract} {u f : String} : Reachable c → Reachable (stepAddFriend c u f)
  | send {c : Contract} {u r m : String} {t : Nat} : Reachable c → Reachable (stepSend c u r m t)

/-! ## Spec-side failure conditions

These two definitions follow the wording of the claims/spec (§4.2, §4.3, §7),
listing the failure conditions in the order the spec gives them; the
refinement theorems below compare them with the source translations. -/

/-- Failure condition of `add_friend` as the spec words it: `Unauthorized`
when the caller is not registered, else `InvalidTarget` when the target is
not registered, else `SelfReference` when caller = target, else success. -/
def addFriendErrorSpec (c : Contract) (user_id friend_id : String) : Option ContractError :=
  if user_id ∉ c.users then some ContractError.Unauthorized
  else if friend_id ∉ c.users then some ContractError.InvalidTarget
  else if user_id = friend_id then some ContractError.SelfReference
  else none

/-- Failure condition of `send_message` as the spec words it: `Unauthorized`
when the caller is not registered, else `InvalidTarget` when the receiver is
not registered, else `NoFriendsAtAll` when the caller has no friendship
entries at all, else `NotFriend` when the pair caller→receiver is not
recorded, else `EmptyMessage` on empty content, else success. -/
def sendErrorSpec (c : Contract) (user_id receiver_id content : String) : Option ContractError :=
  if user_id ∉ c.users then some ContractError.Unauthorized
  else if receiver_id ∉ c.users then some ContractError.InvalidTarget
  else if lookupMap c.friends user_id = none then some ContractError.NoFriendsAtAll
  else if friendFact c user_id receiver_id = none then some ContractError.NotFriend
  else if content = "" then some ContractError.EmptyMessage
  else none

/-! ## Concrete runs used for witnesses -/

/-- Two accounts registered, no friendships, no messages. -/
def demoReg : Contract :=
  stepCreate (stepCreate Contract.new "alice") "bob"

/-- … and alice has added bob as a friend. -/
def demoFriends : Contract :=
  stepAddFriend demoReg "alice" "bob"

/-- … and alice has sent bob `m1`, `m2`, `m3` (at times 1, 2, 3). -/
def demoChat : Contract :=
  stepSend (stepSend (stepSend demoFriends "alice" "bob" "m1" 1) "alice" "bob" "m2" 2)
    "alice" "bob" "m3" 3

/-- A run on four accounts whose two friendship pairs ("ab", "cdef") and
("abc", "def") collide onto one chat id. -/
def demoColl : Contract :=
  stepSend
    (stepSend
      (stepAddFriend
        (stepAddFriend
          (stepCreate (stepCreate (stepCreate (stepCreate Contract.new "ab") "cdef") "abc") "def")
          "ab" "cdef")
        "abc" "def")
      "ab" "cdef" "x" 1)
    "abc" "def" "y" 2

/-- Invariant on the friendship store: every directed fact agrees with its
mirror image, and every stored boolean is `true`. -/
def FriendsOk (c : Contract) : Prop :=
  ∀ a b, friendFact c a b = friendFact c b a ∧ ∀ v, friendFact c a b = some v → v = true

/-! ## Association-list lemmas -/

lemma lookupMap_insertMap {α β : Type} [DecidableEq α] (m : List (α × β)) (k j : α) (v : β) :
    lookupMap (insertMap m k v) j = if j = k then some v else lookupMap m j := by
  induction m with
  | nil =>
    simp only [insertMap, lookupMap]
    by_cases h : k = j
    · subst h; simp
    · rw [if_neg h, if_neg (fun hh => h hh.symm)]
  | cons p rest ih =>
    simp only [insertMap]
    by_cases hpk : p.1 = k
    · rw [if_pos hpk]
      simp only [lookupMap]
      by_cases hkj : k = j
      · subst hkj; rw [if_pos rfl, if_pos rfl]
      · rw [if_neg hkj, if_neg (fun hh => hkj hh.symm), if_neg (hpk ▸ hkj)]
    · rw [if_neg hpk]
      simp only [lookupMap, ih]
      by_cases hpj : p.1 = j
      · have hjk : ¬(j = k) := fun hh => hpk (hpj.trans hh)
        simp [hpj, hjk]
      · simp [hpj]

lemma insertMap_lookup_eq {α β : Type} [DecidableEq α] {m : List (α × β)} {k : α} {v : β}
    (h : lookupMap m k = some v) : insertMap m k v = m := by
  induction m with
  | nil => simp [lookupMap] at h
  | cons p rest ih =>
    simp only [lookupMap] at h
    by_cases hpk : p.1 = k
    · rw [if_pos hpk] at h
      injection h with h2
      simp only [insertMap, if_pos hpk]
      rw [← hpk, ← h2]
    · rw [if_neg hpk] at h
      simp [insertMap, hpk, ih h]

/-! ## Characterizations of the operations -/

lemma stepCreate_friends (c : Contract) (u : String) : (stepCreate c u).friends = c.friends := by
  unfold stepCreate create_account
  split <;> rfl

lemma add_friend_eq_ok {c : Contract} {u f : String}
    (h1 : u ∈ c.users) (h2 : f ∈ c.users) (h3 : ¬(u = f)) :
    add_friend c u f = Except.ok { c with friends := friendsAfterAdd c.friends u f } := by
  unfold add_friend
  rw [if_pos h1, if_pos h2, if_neg h3]
  rfl

/-- The effect of the two directed writes of `add_friend` on every directed
fact: the pair being added (in both directions) now reads `true`, everything
else is untouched. -/
lemma friendFact_after_writes (fr : List (String × List (String × Bool))) (u f a b : String)
    (hne : ¬(u = f)) :
    lookupMap ((lookupMap (friendsAfterAdd fr u f) a).getD []) b =
      if (a = u ∧ b = f) ∨ (a = f ∧ b = u) then some true
      else lookupMap ((lookupMap fr a).getD []) b := by
  unfold friendsAfterAdd
  have hfu : ¬(f = u) := fun hh => hne hh.symm
  by_cases haf : a = f
  · subst haf
    rw [lookupMap_insertMap, if_pos rfl, Option.getD_some, lookupMap_insertMap,
        lookupMap_insertMap, if_neg hfu]
    by_cases hbu : b = u
    · rw [if_pos hbu, if_pos (Or.inr ⟨rfl, hbu⟩)]
    · rw [if_neg hbu, if_neg ?_]
      rintro (⟨h1, -⟩ | ⟨-, h2⟩)
      · exact hfu h1
      · exact hbu h2
  · by_cases hau : a = u
    · subst hau
      rw [lookupMap_insertMap, if_neg haf, lookupMap_insertMap, if_pos rfl,
          Option.getD_some, lookupMap_insertMap]
      by_cases hbf : b = f
      · rw [if_pos hbf, if_pos (Or.inl ⟨rfl, hbf⟩)]
      · rw [if_neg hbf, if_neg ?_]
        rintro (⟨-, h1⟩ | ⟨h2, -⟩)
        · exact hbf h1
        · exact haf h2
    · rw [lookupMap_insertMap, if_neg haf, lookupMap_insertMap, if_neg hau, if_neg ?_]
      rintro (⟨h1, -⟩ | ⟨h2, -⟩)
      · exact hau h1
      · exact haf h2

/-- Everything `add_friend` guarantees about a successful call. -/
lemma add_friend_ok {c : Contract} {u f : String} {c' : Contract}
    (h : add_friend c u f = Except.ok c') :
    u ∈ c.users ∧ f ∈ c.users ∧ ¬(u = f) ∧ c'.users = c.users ∧ c'.messages = c.messages ∧
      ∀ a b, friendFact c' a b =
        if (a = u ∧ b = f) ∨ (a = f ∧ b = u) then some true else friendFact c a b := by
  unfold add_friend at h
  by_cases h1 : u ∈ c.users
  · rw [if_pos h1] at h
    by_cases h2 : f ∈ c.users
    · rw [if_pos h2] at h
      by_cases h3 : u = f
      · rw [if_pos h3] at h; exact absurd h (by simp)
      · rw [if_neg h3] at h
        injection h with h
        subst h
        refine ⟨h1, h2, h3, rfl, rfl, fun a b => ?_⟩
        exact friendFact_after_writes c.friends u f a b h3
    · rw [if_neg h2] at h; exact absurd h (by simp)
  · rw [if_neg h1] at h; exact absurd h (by simp)

/-- Everything `send_message` guarantees about a successful call. -/
lemma send_message_ok {c : Contract} {u r m : String} {t : Nat} {hsh : CryptoHash}
    {c' : Contract} (h : send_message c u r m t = Except.ok (hsh, c')) :
    hsh = get_chat_id u r ∧ c'.users = c.users ∧ c'.friends = c.friends ∧
      c'.messages = insertMap c.messages (get_chat_id u r)
        ((lookupMap c.messages (get_chat_id u r)).getD [] ++ [⟨u, m, t⟩]) := by
  unfold send_message at h
  by_cases h1 : u ∈ c.users
  · rw [if_pos h1] at h
    by_cases h2 : r ∈ c.users
    · rw [if_pos h2] at h
      rcases hf : lookupMap c.friends u with _ | inner
      · rw [hf] at h; exact absurd h (by simp)
      · rw [hf] at h
        simp only at h
        by_cases h3 : (lookupMap inner r).isSome
        · rw [if_pos h3] at h
          by_cases h4 : m = ""
          · rw [if_pos h4] at h; exact absurd h (by simp)
          · rw [if_neg h4] at h
            simp only [Except.ok.injEq, Prod.mk.injEq] at h
            obtain ⟨hh, hc⟩ := h
            subst hh
            subst hc
            exact ⟨rfl, rfl, rfl, rfl⟩
        · rw [if_neg h3] at h; exact absurd h (by simp)
    · rw [if_neg h2] at h; exact absurd h (by simp)
  · rw [if_neg h1] at h; exact absurd h (by simp)

/-! ## The friends-store invariant -/

lemma friendsOk_congr {c c' : Contract} (h : c'.friends = c.friends) (hc : FriendsOk c) :
    FriendsOk c' := by
  intro a b
  have e : ∀ x y, friendFact c' x y = friendFact c x y := fun x y => by
    unfold friendFact; rw [h]
  rw [e a b, e b a]
  exact hc a b

lemma friendsOk_reachable {c : Contract} (h : Reachable c) : FriendsOk c := by
  induction h with
  | init =>
    intro a b
    simp [friendFact, Contract.new, lookupMap]
  | create _ ih =>
    exact friendsOk_congr (stepCreate_friends _ _) ih
  | @add c u f _ ih =>
    rcases hm : add_friend c u f with e | c'
    · have hstep : stepAddFriend c u f = c := by unfold stepAddFriend; rw [hm]
      rw [hstep]; exact ih
    · have hstep : stepAddFriend c u f = c' := by unfold stepAddFriend; rw [hm]
      rw [hstep]
      obtain ⟨-, -, hne, -, -, hchar⟩ := add_friend_ok hm
      intro a b
      constructor
      · rw [hchar a b, hchar b a]
        by_cases h1 : (a = u ∧ b = f) ∨ (a = f ∧ b = u)
        · have h2 : (b = u ∧ a = f) ∨ (b = f ∧ a = u) := by tauto
          rw [if_pos h1, if_pos h2]
        · have h2 : ¬((b = u ∧ a = f) ∨ (b = f ∧ a = u)) := by tauto
          rw [if_neg h1, if_neg h2]
          exact (ih a b).1
      · intro v hv
        rw [hchar a b] at hv
        by_cases h1 : (a = u ∧ b = f) ∨ (a = f ∧ b = u)
        · rw [if_pos h1] at hv
          injection hv with hv
          exact hv.symm
        · rw [if_neg h1] at hv
          exact (ih a b).2 v hv
  | @send c u r msg t _ ih =>
    rcases hm : send_message c u r msg t with e | p
    · have hstep : stepSend c u r msg t = c := by unfold stepSend; rw [hm]
      rw [hstep]; exact ih
    · have hstep : stepSend c u r msg t = p.2 := by unfold stepSend; rw [hm]
      rw [hstep]
      obtain ⟨-, -, hfr, -⟩ := send_message_ok (hm.trans (congrArg Except.ok rfl))
      exact friendsOk_congr hfr ih

/-! ## The claims -/

/-- Re-adding an existing edge rewrites the same values: the double write of
`add_friend` is idempotent on the friends store. -/
lemma friendsAfterAdd_idem (fr : List (String × List (String × Bool))) (u f : String)
    (hne : ¬(u = f)) :
    friendsAfterAdd (friendsAfterAdd fr u f) u f = friendsAfterAdd fr u f := by
  unfold friendsAfterAdd
  set J1 := (lookupMap fr u).getD [] with hJ1
  set I1 := insertMap J1 f true with hI1
  set F1 := insertMap fr u I1 with hF1
  set J2 := (lookupMap F1 f).getD [] with hJ2
  set I2 := insertMap J2 u true with hI2
  set A := insertMap F1 f I2 with hA
  have hAu : lookupMap A u = some I1 := by
    rw [hA, lookupMap_insertMap, if_neg hne, hF1, lookupMap_insertMap, if_pos rfl]
  have hI1f : lookupMap I1 f = some true := by
    rw [hI1, lookupMap_insertMap, if_pos rfl]
  have h1 : insertMap ((lookupMap A u).getD []) f true = I1 := by
    rw [hAu, Option.getD_some]
    exact insertMap_lookup_eq hI1f
  rw [h1, insertMap_lookup_eq hAu]
  have hAf : lookupMap A f = some I2 := by
    rw [hA, lookupMap_insertMap, if_pos rfl]
  have hI2u : lookupMap I2 u = some true := by
    rw [hI2, lookupMap_insertMap, if_pos rfl]
  have h3 : insertMap ((lookupMap A f).getD []) u true = I2 := by
    rw [hAf, Option.getD_some]
    exact insertMap_lookup_eq hI2u
  rw [h3]
  exact insertMap_lookup_eq hAf

lemma strBytes_append (a b : String) : strBytes (a ++ b) = strBytes a ++ strBytes b := by
  unfold strBytes
  have h : (a ++ b).toList = a.toList ++ b.toList := rfl
  rw [h, List.map_append, List.flatten_append]

set_option maxRecDepth 10000

/-- C1: `get_chat_id(a, b)` is a pure, deterministic function of the ordered
pair `(a, b)`: it equals the 256-bit Keccak digest of the UTF-8 bytes of `a`
immediately followed by the UTF-8 bytes of `b` (no separator, no
canonicalization of the order), and for the pair `("alice", "bob")` with
`"alice" ≠ "bob"` the two argument orders give different chat ids. -/
theorem C1_chat_id_digest :
    (∀ a b : String, get_chat_id a b = keccak256 (strBytes a ++ strBytes b))
    ∧ ¬("alice" = "bob")
    ∧ ¬(get_chat_id "alice" "bob" = get_chat_id "bob" "alice") := by
  refine ⟨fun a b => ?_, by decide, by decide⟩
  unfold get_chat_id calculate_hash
  rw [strBytes_append]

/-- C2: `send_message` fails exactly under the conditions the spec lists, in
the spec's order: caller unregistered (`Unauthorized`), receiver unregistered
(`InvalidTarget`), caller owning no friends map at all (`NoFriendsAtAll`, a
panic site distinct from `NotFriend`), missing caller→receiver entry
(`NotFriend`), empty content (`EmptyMessage`); when none applies the call
succeeds.  All checks precede the append, and an error is a NEAR panic, which
reverts the call, so a failing call leaves every store unchanged. -/
theorem C2_send_message_failure : ∀ (c : Contract) (u r m : String) (t : Nat),
    (∀ e, send_message c u r m t = Except.error e ↔ sendErrorSpec c u r m = some e)
    ∧ (sendErrorSpec c u r m = none → ∃ p, send_message c u r m t = Except.ok p)
    ∧ ¬(ContractError.NoFriendsAtAll = ContractError.NotFriend) := by
  intro c u r m t
  have hiff : ∀ e, send_message c u r m t = Except.error e ↔ sendErrorSpec c u r m = some e := by
    intro e
    by_cases h1 : u ∈ c.users
    case neg => simp [send_message, sendErrorSpec, h1]
    by_cases h2 : r ∈ c.users
    case neg => simp [send_message, sendErrorSpec, h1, h2]
    rcases hf : lookupMap c.friends u with _ | inner
    · simp [send_message, sendErrorSpec, friendFact, h1, h2, hf]
    rcases hfr : lookupMap inner r with _ | w
    · simp [send_message, sendErrorSpec, friendFact, h1, h2, hf, hfr]
    by_cases h4 : m = "" <;>
      simp [send_message, sendErrorSpec, friendFact, h1, h2, hf, hfr, h4]
  refine ⟨hiff, fun hn => ?_, by decide⟩
  rcases hs : send_message c u r m t with e | p
  · rw [hiff e, hn] at hs
    exact absurd hs (by simp)
  · exact ⟨p, rfl⟩

/-- C5: `add_friend` fails exactly under the spec's conditions, in the spec's
order: caller unregistered (`Unauthorized`), target unregistered
(`InvalidTarget`), caller equals target (`SelfReference`); with none of them
it succeeds.  An error is a NEAR panic, which reverts the call, so a failing
call changes no state. -/
theorem C5_add_friend_failure : ∀ (c : Contract) (u f : String),
    (∀ e, add_friend c u f = Except.error e ↔ addFriendErrorSpec c u f = some e)
    ∧ (addFriendErrorSpec c u f = none → ∃ c', add_friend c u f = Except.ok c') := by
  intro c u f
  have hiff : ∀ e, add_friend c u f = Except.error e ↔ addFriendErrorSpec c u f = some e := by
    intro e
    by_cases h1 : u ∈ c.users
    case neg => simp [add_friend, addFriendErrorSpec, h1]
    by_cases h2 : f ∈ c.users
    case neg => simp [add_friend, addFriendErrorSpec, h1, h2]
    by_cases h3 : u = f <;> simp [add_friend, addFriendErrorSpec, h1, h2, h3]
  refine ⟨hiff, fun hn => ?_⟩
  rcases hs : add_friend c u f with e | c'
  · rw [hiff e, hn] at hs
    exact absurd hs (by simp)
  · exact ⟨c', rfl⟩

/-- An unregistered caller is turned away: `C2_send_message_failure`
instantiated on the concrete state `demoReg` (where "carol" never
registered). -/
theorem C2_witness :
    send_message demoReg "carol" "bob" "hi" 0 = Except.error ContractError.Unauthorized :=
  ((C2_send_message_failure demoReg "carol" "bob" "hi" 0).1 ContractError.Unauthorized).mpr
    (by decide)

/-- Adding oneself is turned away: `C5_add_friend_failure` instantiated on
the concrete state `demoReg`. -/
theorem C5_witness :
    add_friend demoReg "alice" "alice" = Except.error ContractError.SelfReference :=
  ((C5_add_friend_failure demoReg "alice" "alice").1 ContractError.SelfReference).mpr
    (by decide)

/-- C3: `get_messages` resolves the channel from `(user, receiver)` in the
order given, panics with `NoSuchChannel` exactly when no log exists at that
channel (it never silently returns an empty sequence there), and otherwise
returns up to `limit` (default 10) messages after skipping `offset` (default
0) of the log in reverse append order; concretely, after `m1, m2, m3` were
sent on one channel, `limit = 3, offset = 0` yields `[m3, m2, m1]` and
`limit = 1, offset = 1` yields `[m2]`. -/
theorem C3_get_messages_pagination :
    (∀ (c : Contract) (u r : String) (lim off : Option Nat),
      (get_messages c u r lim off = Except.error ContractError.NoSuchChannel ↔
        lookupMap c.messages (get_chat_id u r) = none)
      ∧ ∀ msgs, lookupMap c.messages (get_chat_id u r) = some msgs →
          get_messages c u r lim off =
            Except.ok ((msgs.reverse.drop (off.getD 0)).take (lim.getD 10)))
    ∧ get_messages demoChat "alice" "bob" (some 3) (some 0) =
        Except.ok [⟨"alice", "m3", 3⟩, ⟨"alice", "m2", 2⟩, ⟨"alice", "m1", 1⟩]
    ∧ get_messages demoChat "alice" "bob" (some 1) (some 1) =
        Except.ok [⟨"alice", "m2", 2⟩] := by
  refine ⟨fun c u r lim off => ⟨?_, fun msgs hm => ?_⟩, by rfl, by rfl⟩
  · unfold get_messages
    rcases hm : lookupMap c.messages (get_chat_id u r) with _ | msgs <;> simp
  · unfold get_messages
    rw [hm]

/-- `C3_get_messages_pagination` instantiated on the concrete state
`demoChat` with its stored log, `limit = 2, offset = 1`. -/
theorem C3_witness :
    get_messages demoChat "alice" "bob" (some 2) (some 1) =
      Except.ok [⟨"alice", "m2", 2⟩, ⟨"alice", "m1", 1⟩] :=
  (C3_get_messages_pagination.1 demoChat "alice" "bob" (some 2) (some 1)).2
    [⟨"alice", "m1", 1⟩, ⟨"alice", "m2", 2⟩, ⟨"alice", "m3", 3⟩] (by rfl)

/-- C4: friendship is symmetric and `add_friend` is idempotent: a successful
`add_friend(A, B)` stores both directed facts as `true` (so `are_friends`
holds both ways), immediately re-adding the same pair succeeds and returns
the very same state, and in every reachable state the directed fact `a→b`
exists iff `b→a` exists. -/
theorem C4_friendship_symmetric_idempotent :
    (∀ (c : Contract) (u f : String) (c' : Contract), add_friend c u f = Except.ok c' →
      are_friends c' u f = true ∧ are_friends c' f u = true ∧
        add_friend c' u f = Except.ok c')
    ∧ ∀ c : Contract, Reachable c → ∀ a b : String,
        (friendFact c a b).isSome ↔ (friendFact c b a).isSome := by
  constructor
  · intro c u f c' h
    obtain ⟨h1, h2, h3, -, -, hchar⟩ := add_friend_ok h
    refine ⟨by simp [are_friends, hchar u f], by simp [are_friends, hchar f u], ?_⟩
    have he := add_friend_eq_ok h1 h2 h3
    rw [h] at he
    injection he with he
    subst he
    have key : add_friend { c with friends := friendsAfterAdd c.friends u f } u f =
        Except.ok { c with friends := friendsAfterAdd (friendsAfterAdd c.friends u f) u f } :=
      add_friend_eq_ok h1 h2 h3
    rw [friendsAfterAdd_idem c.friends u f h3] at key
    exact key
  · intro c hc a b
    rw [(friendsOk_reachable hc a b).1]

/-- `C4_friendship_symmetric_idempotent` instantiated on the concrete run
`demoReg → demoFriends` and on the reachable state `demoChat`. -/
theorem C4_witness :
    (are_friends demoFriends "alice" "bob" = true
      ∧ are_friends demoFriends "bob" "alice" = true
      ∧ add_friend demoFriends "alice" "bob" = Except.ok demoFriends)
    ∧ ((friendFact demoChat "alice" "bob").isSome ↔ (friendFact demoChat "bob" "alice").isSome) :=
  ⟨C4_friendship_symmetric_idempotent.1 demoReg "alice" "bob" demoFriends (by rfl),
   C4_friendship_symmetric_idempotent.2 demoChat
     (.send (.send (.send (.add (.create (.create .init)))))) "alice" "bob"⟩

/-- C6: a successful `send_message(receiver, content)` appends exactly one
message `{author: caller, content, created_at: now_ms}` at the end of the log
of the channel derived from `(caller, receiver)` in that order (creating the
log when absent), returns that channel id, and leaves every other channel's
log, the registry and the friends store unchanged. -/
theorem C6_send_message_success : ∀ (c : Contract) (u r m : String) (t : Nat)
    (hsh : CryptoHash) (c' : Contract), send_message c u r m t = Except.ok (hsh, c') →
      hsh = get_chat_id u r
      ∧ lookupMap c'.messages hsh = some ((lookupMap c.messages hsh).getD [] ++ [⟨u, m, t⟩])
      ∧ (∀ k, ¬(k = hsh) → lookupMap c'.messages k = lookupMap c.messages k)
      ∧ c'.users = c.users ∧ c'.friends = c.friends := by
  intro c u r m t hsh c' h
  obtain ⟨hh, hu, hf, hm⟩ := send_message_ok h
  subst hh
  refine ⟨rfl, ?_, ?_, hu, hf⟩
  · rw [hm, lookupMap_insertMap, if_pos rfl]
  · intro k hk
    rw [hm, lookupMap_insertMap, if_neg hk]

/-- `C6_send_message_success` instantiated on the first send of the concrete
run (`demoFriends`, "alice" → "bob", "m1" at time 1). -/
theorem C6_witness :
    get_chat_id "alice" "bob" = get_chat_id "alice" "bob"
    ∧ lookupMap (stepSend demoFriends "alice" "bob" "m1" 1).messages
        (get_chat_id "alice" "bob") =
        some ((lookupMap demoFriends.messages (get_chat_id "alice" "bob")).getD [] ++
          [⟨"alice", "m1", 1⟩])
    ∧ (∀ k, ¬(k = get_chat_id "alice" "bob") →
        lookupMap (stepSend demoFriends "alice" "bob" "m1" 1).messages k =
          lookupMap demoFriends.messages k)
    ∧ (stepSend demoFriends "alice" "bob" "m1" 1).users = demoFriends.users
    ∧ (stepSend demoFriends "alice" "bob" "m1" 1).friends = demoFriends.friends :=
  C6_send_message_success demoFriends "alice" "bob" "m1" 1 (get_chat_id "alice" "bob")
    (stepSend demoFriends "alice" "bob" "m1" 1) (by rfl)

/-- C7: `create_account` (the spec's `register`) has no precondition,
returns whether the caller was newly inserted, and is idempotent: for an
account not yet registered, two calls in a row return `true` then `false`
and grow `get_users_length` by exactly one. -/
theorem C7_create_account_idempotent : ∀ (c : Contract) (caller : String),
    ((create_account c caller).1 = true ↔ ¬(caller ∈ c.users))
    ∧ caller ∈ (create_account c caller).2.users
    ∧ (¬(caller ∈ c.users) →
        (create_account c caller).1 = true
        ∧ (create_account (create_account c caller).2 caller).1 = false
        ∧ get_users_length (create_account (create_account c caller).2 caller).2
            = get_users_length c + 1) := by
  intro c caller
  by_cases h : caller ∈ c.users
  · exact ⟨by simp [create_account, h], by simp [create_account, h],
      fun hn => absurd h hn⟩
  · refine ⟨by simp [create_account, h], by simp [create_account, h], fun _ => ?_⟩
    have h2 : caller ∈ c.users ++ [caller] := by simp
    exact ⟨by simp [create_account, h], by simp [create_account, h, h2],
      by simp [create_account, get_users_length, h, h2]⟩

/-- `C7_create_account_idempotent` instantiated on the empty contract and the
fresh account "alice". -/
theorem C7_witness :
    (create_account Contract.new "alice").1 = true
    ∧ (create_account (create_account Contract.new "alice").2 "alice").1 = false
    ∧ get_users_length (create_account (create_account Contract.new "alice").2 "alice").2
        = get_users_length Contract.new + 1 :=
  (C7_create_account_idempotent Contract.new "alice").2.2 (by decide)

/-- C8: `get_users` returns up to `limit` (default 10) account ids after
skipping `offset` (default 0), iterating the registry in reverse insertion
order (most recently registered first: the entry at position `i` of the page
is the registry entry at index `length - 1 - (offset + i)`), and any
offset at or beyond the registry size yields the empty sequence rather than
an error. -/
theorem C8_get_users_pagination : ∀ (c : Contract) (lim off : Option Nat),
    get_users c lim off = (c.users.reverse.drop (off.getD 0)).take (lim.getD 10)
    ∧ (get_users c lim off).length ≤ lim.getD 10
    ∧ (∀ i, off.getD 0 + i < c.users.length → i < lim.getD 10 →
        (get_users c lim off)[i]? = c.users[c.users.length - 1 - (off.getD 0 + i)]?)
    ∧ ∀ o : Nat, c.users.length ≤ o → get_users c lim (some o) = [] := by
  intro c lim off
  refine ⟨rfl, ?_, fun i h1 h2 => ?_, fun o ho => ?_⟩
  · exact List.length_take_le _ _
  · unfold get_users
    rw [List.getElem?_take, if_pos h2, List.getElem?_drop,
        List.getElem?_reverse (by simpa using h1)]
  · unfold get_users
    rw [Option.getD_some, List.drop_eq_nil_of_le (by simpa using ho), List.take_nil]

/-- `C8_get_users_pagination` instantiated on the concrete registry of
`demoReg` (["alice", "bob"]): position 0 of the first page is the most
recently registered account, and offset 5 is past the end. -/
theorem C8_witness :
    (get_users demoReg (some 10) (some 0))[0]? =
      demoReg.users[demoReg.users.length - 1 - ((some 0).getD 0 + 0)]?
    ∧ get_users demoReg (some 1) (some 5) = [] :=
  ⟨(C8_get_users_pagination demoReg (some 10) (some 0)).2.2.1 0 (by decide) (by decide),
   (C8_get_users_pagination demoReg (some 1) (some 0)).2.2.2 5 (by decide)⟩

/-- C9: the channel id hashes the bare concatenation of the two id strings,
so every pair of ordered pairs with the same concatenation collides:
`get_chat_id (a, b) = get_chat_id (x, y)` whenever `a ++ b = x ++ y`, in
particular `get_chat_id ("aa", "a") = get_chat_id ("a", "aa")` although the
pairs differ; concretely, in the run `demoColl` the two distinct
conversations "ab"→"cdef" and "abc"→"def" land in one shared log. -/
theorem C9_chat_id_collision :
    (∀ a b x y : String, a ++ b = x ++ y → get_chat_id a b = get_chat_id x y)
    ∧ get_chat_id "aa" "a" = get_chat_id "a" "aa"
    ∧ ¬(("aa", "a") = (("a", "aa") : String × String))
    ∧ get_messages demoColl "ab" "cdef" (some 10) (some 0) =
        Except.ok [⟨"abc", "y", 2⟩, ⟨"ab", "x", 1⟩] := by
  have hgen : ∀ a b x y : String, a ++ b = x ++ y → get_chat_id a b = get_chat_id x y := by
    intro a b x y h
    unfold get_chat_id calculate_hash
    rw [h]
  exact ⟨hgen, hgen "aa" "a" "a" "aa" rfl, by decide, by rfl⟩

/-- `C9_chat_id_collision` instantiated on the colliding pairs of valid
account ids ("ab", "cdef") and ("abc", "def"). -/
theorem C9_witness : get_chat_id "ab" "cdef" = get_chat_id "abc" "def" :=
  C9_chat_id_collision.1 "ab" "cdef" "abc" "def" rfl

/-- C10: in every reachable state every boolean stored in any inner friends
map is `true` (no operation ever writes `false`), so the key-presence test
`send_message` uses (`contains_key` on the caller's inner map) is equivalent
to "the directed fact caller→receiver exists and equals `true`". -/
theorem C10_stored_flags_true : ∀ c : Contract, Reachable c →
    (∀ (a : String) (inner : List (String × Bool)), lookupMap c.friends a = some inner →
      ∀ (b : String) (v : Bool), lookupMap inner b = some v → v = true)
    ∧ ∀ a b : String,
        (∃ inner, lookupMap c.friends a = some inner ∧ (lookupMap inner b).isSome = true)
        ↔ friendFact c a b = some true := by
  intro c hc
  have hok := friendsOk_reachable hc
  have hval : ∀ (a : String) (inner : List (String × Bool)),
      lookupMap c.friends a = some inner →
      ∀ (b : String) (v : Bool), lookupMap inner b = some v → v = true := by
    intro a inner ha b v hb
    refine (hok a b).2 v ?_
    unfold friendFact
    rw [ha, Option.getD_some]
    exact hb
  refine ⟨hval, fun a b => ⟨?_, ?_⟩⟩
  · rintro ⟨inner, ha, hb⟩
    rcases Option.isSome_iff_exists.mp hb with ⟨v, hv⟩
    have hf : friendFact c a b = some v := by
      unfold friendFact
      rw [ha, Option.getD_some]
      exact hv
    rw [hval a inner ha b v hv] at hf
    exact hf
  · intro hf
    unfold friendFact at hf
    rcases ha : lookupMap c.friends a with _ | inner
    · rw [ha] at hf
      simp [lookupMap] at hf
    · rw [ha, Option.getD_some] at hf
      exact ⟨inner, rfl, by rw [hf]; rfl⟩

/-- `C10_stored_flags_true` instantiated on the reachable state `demoChat`
and the pair ("alice", "bob"). -/
theorem C10_witness :
    (∃ inner, lookupMap demoChat.friends "alice" = some inner ∧
      (lookupMap inner "bob").isSome = true)
    ↔ friendFact demoChat "alice" "bob" = some true :=
  (C10_stored_flags_true demoChat
    (.send (.send (.send (.add (.create (.create .init))))))).2 "alice" "bob"
